import Mathlib

/-!
# Verification of `transmission.CompletedFiles` (dlph/homelab)

A shallow embedding of `TransmissionClient.CompletedFiles`
(`src/transmission/transmission.go`, lines 65-116) together with the
theorems that settle the claims of the specification against it.

Modelling conventions.

* Go `int64` values are `Int`; the code only compares them, so no wrap-around
  can occur.  `int(x)` is the identity (64-bit platform).
* A Go pointer field (`*string`, `*int64`) is an `Option`; dereferencing `nil`
  panics.
* Indexing a slice out of range panics, `slices.Grow` panics on a negative
  count.  A panic ends the run without a return value.
* The side effects of a run are recorded: every `logger.Warn` call and every
  `fs.Stat` call, in program order.
* The filesystem is an oracle from paths to the answer of `Stat`.
-/

namespace Homelab

/-! ## Go library types used by the code -/

/-- Go `error` values, as far as the callers of the code can tell them apart. -/
inductive Error where
  | ErrNotExist
  | ErrPermission
  | other (msg : String)
  deriving DecidableEq, Repr

/-- The fields of `transmissionrpc.TorrentFile`. -/
structure TorrentFile where
  BytesCompleted : Int
  Length : Int
  Name : String
  deriving DecidableEq, Repr

/-- The fields of `transmissionrpc.TorrentFileStat`. -/
structure TorrentFileStat where
  BytesCompleted : Int
  Wanted : Bool
  Priority : Int
  deriving DecidableEq, Repr

/-- The fields of `transmissionrpc.Torrent` that `CompletedFiles` reads.
`DownloadDir` and `FileCount` are pointers in Go. -/
structure Torrent where
  DownloadDir : Option String
  Files : List TorrentFile
  FileStats : List TorrentFileStat
  FileCount : Option Int
  deriving DecidableEq, Repr

/-- A `zap.Field`: `zap.String(key, val)` or `zap.Int64(key, val)`. -/
inductive Field where
  | String (key : String) (val : String)
  | Int64 (key : String) (val : Int)
  deriving DecidableEq, Repr

/-- One call of `logger.Warn(msg, fields...)`. -/
structure Warn where
  msg : String
  fields : List Field
  deriving DecidableEq, Repr

/-- The filesystem as `CompletedFiles` sees it: `fs.Stat(name)` answers with the
size of the file (`srcStat.Size()`) or with an error. -/
abbrev Fs := String → Except Error Int

/-! ## `path/filepath.Join` (Unix) -/

/-- The backtracking of `filepath.Clean` on a `..` element: starting from
`w`, step back while `w > dotdot` and `out[w]` is not a separator. -/
def cleanBack (out : List Char) (dotdot : Nat) : Nat → Nat
  | 0 => 0
  | w + 1 =>
    if w + 1 > dotdot && out[w + 1]? != some '/' then cleanBack out dotdot w
    else w + 1

/-- The main loop of `filepath.Clean`: `rest` is the unread input `path[r:]`,
`out` the buffer written so far (`w = out.length`), `dotdot` the index where
`..` must stop.  Every iteration reads at least one byte, so the length of the
input bounds the number of iterations. -/
def cleanLoop (rooted : Bool) : Nat → List Char → List Char → Nat → List Char
  | 0, _, out, _ => out
  | _ + 1, [], out, _ => out
  | n + 1, c :: rest, out, dotdot =>
    if c == '/' then
      cleanLoop rooted n rest out dotdot
    else if c == '.' && (rest.isEmpty || rest.head? == some '/') then
      cleanLoop rooted n rest out dotdot
    else if c == '.' && rest.head? == some '.'
        && (rest.tail.isEmpty || rest.tail.head? == some '/') then
      if out.length > dotdot then
        cleanLoop rooted n rest.tail
          (out.take (cleanBack out dotdot (out.length - 1))) dotdot
      else if !rooted then
        let out1 := if out.length > 0 then out ++ ['/'] else out
        let out2 := out1 ++ ['.', '.']
        cleanLoop rooted n rest.tail out2 out2.length
      else
        cleanLoop rooted n rest.tail out dotdot
    else
      let out1 :=
        if (rooted && out.length != 1) || (!rooted && out.length != 0) then out ++ ['/']
        else out
      cleanLoop rooted n ((c :: rest).dropWhile (fun x => x != '/'))
        (out1 ++ (c :: rest).takeWhile (fun x => x != '/')) dotdot

/-- Go `filepath.Clean` on Unix (no volume name, separator `/`). -/
def filepathClean (path : String) : String :=
  match path.data with
  | [] => "."
  | c :: rest =>
    let rooted := c == '/'
    let out := cleanLoop rooted (c :: rest).length (if rooted then rest else c :: rest)
      (if rooted then ['/'] else []) (if rooted then 1 else 0)
    if out.isEmpty then "." else String.mk out

/-- Go `filepath.Join(dir, name)` on Unix: empty leading elements are dropped,
the others are joined with `/` and the result is cleaned. -/
def filepathJoin (dir name : String) : String :=
  if dir != "" then filepathClean (dir ++ "/" ++ name)
  else if name != "" then filepathClean name
  else ""

/-! ## `CompletedFiles` -/

/-- The state of a run: the `results` slice, and the calls of `logger.Warn` and
of `fs.Stat` made so far. -/
structure St where
  results : List String
  logs : List Warn
  stats : List String
  deriving DecidableEq, Repr

/-- The state at the start of the loops: `results` is empty. -/
def St.init : St := ⟨[], [], []⟩

/-- Where a piece of the code leaves the run: it goes on with a new state, or
it has panicked. -/
inductive Step where
  | next (st : St)
  | panic (st : St)
  deriving DecidableEq, Repr

/-- The `logger.Warn("source file missing", ...)` call of line 100. -/
def warnMissing (file : TorrentFile) (filename : String) : Warn :=
  ⟨"source file missing",
    [Field.String "name" file.Name, Field.String "source" filename,
     Field.String "size" (toString file.BytesCompleted ++ "/" ++ toString file.Length)]⟩

/-- The `logger.Warn("filesize mismatch", ...)` call of line 106. -/
def warnMismatch (file : TorrentFile) (filename : String) (size : Int) : Warn :=
  ⟨"filesize mismatch",
    [Field.String "filename" filename, Field.Int64 "torrent_file_size" file.Length,
     Field.Int64 "fs_file_size" size]⟩

/-- The body of the inner loop (lines 79-111) for index `i`. -/
def fileBody (fs : Fs) (torrent : Torrent) (i : Nat) (st : St) : Step :=
  match torrent.Files[i]? with
  | none => .panic st
  | some file =>
    match torrent.FileStats[i]? with
    | none => .panic st
    | some fileStats =>
      if file.BytesCompleted != file.Length then .next st
      else if fileStats.BytesCompleted != file.Length then .next st
      else
        match torrent.DownloadDir with
        | none => .panic st
        | some dir =>
          let filename := filepathJoin dir file.Name
          match fs filename with
          | .error _ =>
            .next { st with logs := st.logs ++ [warnMissing file filename],
                            stats := st.stats ++ [filename] }
          | .ok size =>
            if size != file.Length then
              .next { st with logs := st.logs ++ [warnMismatch file filename size],
                              stats := st.stats ++ [filename] }
            else
              .next { st with results := st.results ++ [filename],
                              stats := st.stats ++ [filename] }

/-- The inner loop `for i := ...; i < int(*torrent.FileCount); i++` from index
`i` on, with `remaining` iterations still to run. -/
def filesLoop (fs : Fs) (torrent : Torrent) : Nat → Nat → St → Step
  | 0, _, st => .next st
  | remaining + 1, i, st =>
    match fileBody fs torrent i st with
    | .next st1 => filesLoop fs torrent remaining (i + 1) st1
    | .panic st1 => .panic st1

/-- The body of the outer loop (lines 76-112) for one torrent. -/
def torrentBody (fs : Fs) (torrent : Torrent) (st : St) : Step :=
  match torrent.FileCount with
  | none => .panic st
  | some n =>
    if n < 0 then .panic st
    else filesLoop fs torrent n.toNat 0 st

/-- The outer loop `for _, torrent := range torrents`. -/
def torrentsLoop (fs : Fs) : List Torrent → St → Step
  | [], st => .next st
  | torrent :: rest, st =>
    match torrentBody fs torrent st with
    | .next st1 => torrentsLoop fs rest st1
    | .panic st1 => .panic st1

/-- How a call ends: it returns the pair `(files, err)`, or it panics. -/
inductive Outcome where
  | returned (files : Option (List String)) (err : Option Error)
  | panicked
  deriving DecidableEq, Repr

/-- A run of `CompletedFiles`: how it ends and what it did on the way. -/
structure Run where
  outcome : Outcome
  logs : List Warn
  stats : List String
  deriving DecidableEq, Repr

/-- `CompletedFiles(ctx, fs)`; `fetch` is what `TorrentGetAll(ctx)` answers. -/
def CompletedFiles (fetch : Except Error (List Torrent)) (fs : Fs) : Run :=
  match fetch with
  | .error err => ⟨.returned none (some err), [], []⟩
  | .ok torrents =>
    match torrentsLoop fs torrents St.init with
    | .next st => ⟨.returned (some st.results) none, st.logs, st.stats⟩
    | .panic st => ⟨.panicked, st.logs, st.stats⟩

/-! ## Auxiliary notions used to state and prove the properties -/

/-- Concatenation of two pieces of a run. -/
def St.append (a b : St) : St :=
  ⟨a.results ++ b.results, a.logs ++ b.logs, a.stats ++ b.stats⟩

/-- Put the state `st` in front of what a piece of code did. -/
def Step.shift (st : St) : Step → Step
  | .next d => .next (st.append d)
  | .panic d => .panic (st.append d)

/-- Sequencing of two pieces of code: the second runs unless the first panicked. -/
def Step.andThen (s : Step) (f : St → Step) : Step :=
  match s with
  | .next st => f st
  | .panic st => .panic st

/-- The record invariant of the data model, `len(files) == len(fileStats) ==
fileCount`, for a record that carries its file count and download directory. -/
def Torrent.WellFormed (t : Torrent) : Prop :=
  t.FileCount = some (t.Files.length : Int) ∧ t.FileStats.length = t.Files.length ∧
    t.DownloadDir.isSome = true

instance Torrent.decidableWellFormed (t : Torrent) : Decidable t.WellFormed := by
  unfold Torrent.WellFormed
  infer_instance

/-- The record without its file at index `i`. -/
def Torrent.eraseFile (t : Torrent) (i : Nat) : Torrent :=
  { t with Files := t.Files.eraseIdx i, FileStats := t.FileStats.eraseIdx i,
           FileCount := t.FileCount.map (fun n => n - 1) }

/-- The record made of the first `k` files of `t`. -/
def Torrent.takeFiles (t : Torrent) (k : Nat) : Torrent :=
  { t with Files := t.Files.take k, FileStats := t.FileStats.take k,
           FileCount := some (k : Int) }

/-- The record made of the files of `t` from index `k` on. -/
def Torrent.dropFiles (t : Torrent) (k : Nat) : Torrent :=
  { t with Files := t.Files.drop k, FileStats := t.FileStats.drop k,
           FileCount := t.FileCount.map (fun n => n - (k : Int)) }

/-- The record with every `wanted` flag cleared: two records that differ only
in their `wanted` flags have the same image. -/
def Torrent.clearWanted (t : Torrent) : Torrent :=
  { t with FileStats := t.FileStats.map (fun s => { s with Wanted := false }) }

/-- Following the specification (§4.1, stages A, B, D and E): the file passes
all checks. -/
def passesAllChecks (fs : Fs) (dir : String) (file : TorrentFile)
    (fileStats : TorrentFileStat) : Bool :=
  file.BytesCompleted == file.Length && fileStats.BytesCompleted == file.Length &&
    (match fs (filepathJoin dir file.Name) with
     | .ok size => size == file.Length
     | .error _ => false)

/-- Following the specification: what index `i` of a torrent contributes to the
verified list, `join(downloadDir, name)` if the file passes all checks. -/
def verifiedAt (fs : Fs) (t : Torrent) (i : Nat) : Option String :=
  match t.DownloadDir, t.Files[i]?, t.FileStats[i]? with
  | some dir, some file, some fileStats =>
    if passesAllChecks fs dir file fileStats then some (filepathJoin dir file.Name) else none
  | _, _, _ => none

/-- Following the specification: the file indices `[0, fileCount)` of one
torrent visited in ascending order. -/
def verifiedOfTorrent (fs : Fs) (t : Torrent) : List String :=
  (List.range (t.FileCount.getD 0).toNat).filterMap (verifiedAt fs t)

/-- Following the specification (ordering guarantee): torrents visited in
snapshot order, nothing reordered, nothing removed. -/
def verifiedInOrder (fs : Fs) : List Torrent → List String
  | [] => []
  | t :: rest => verifiedOfTorrent fs t ++ verifiedInOrder fs rest

/-! ## Concrete inputs -/

/-- The torrent of the scenarios of the specification (§8): download directory
`/data`, one file `a.iso` of length 100, second counter at 100. -/
def scenarioTorrent (bytesCompleted : Int) : Torrent :=
  ⟨some "/data", [⟨bytesCompleted, 100, "a.iso"⟩], [⟨100, true, 0⟩], some 1⟩

/-- A filesystem whose `Stat` gives `answer` for `/data/a.iso` and not-found for
every other path. -/
def scenarioFs (answer : Except Error Int) : Fs :=
  fun path => if path = "/data/a.iso" then answer else .error Error.ErrNotExist

/-- First torrent of the ordering scenario: two complete files. -/
def orderT1 : Torrent :=
  ⟨some "/data", [⟨10, 10, "x"⟩, ⟨20, 20, "y"⟩], [⟨10, true, 0⟩, ⟨20, true, 0⟩], some 2⟩

/-- Second torrent of the ordering scenario: its first file resolves to the
same path as the first file of `orderT1`. -/
def orderT2 : Torrent :=
  ⟨some "/data/", [⟨10, 10, "x"⟩, ⟨30, 30, "z"⟩], [⟨10, false, 0⟩, ⟨30, true, 0⟩], some 2⟩

/-- The filesystem of the ordering scenario. -/
def orderFs : Fs :=
  fun path => if path = "/data/x" then .ok 10 else if path = "/data/y" then .ok 20 else .ok 30

/-- A malformed record: `fileCount` is 1 while `files` and `fileStats` have two
entries. -/
def malformedTorrent : Torrent :=
  ⟨some "/data", [⟨100, 100, "a.iso"⟩, ⟨100, 100, "b.iso"⟩],
    [⟨100, true, 0⟩, ⟨100, true, 0⟩], some 1⟩

/-- The torrent that the server of `TestCompletedFiles` answers with. -/
def testTorrent : Torrent :=
  ⟨some "temp", [⟨100, 100, "a"⟩], [⟨100, true, 1⟩], some 1⟩

/-- The `mockFs` of `TestCompletedFiles`: `Stat` succeeds with size 100 for
every path. -/
def testFs : Fs := fun _ => .ok 100

theorem St.append_init (a : St) : a.append St.init = a := by
  simp [St.append, St.init]

theorem St.init_append (a : St) : St.init.append a = a := by
  simp [St.append, St.init]

theorem St.append_assoc (a b c : St) : (a.append b).append c = a.append (b.append c) := by
  simp [St.append]

theorem Step.shift_init (s : Step) : Step.shift St.init s = s := by
  cases s <;> simp [Step.shift, St.init_append]

theorem Step.shift_shift (a b : St) (s : Step) :
    Step.shift a (Step.shift b s) = Step.shift (a.append b) s := by
  cases s <;> simp [Step.shift, St.append_assoc]

/-- The loop body only appends to the state it is given. -/
theorem fileBody_shift (fs : Fs) (t : Torrent) (i : Nat) (st : St) :
    fileBody fs t i st = Step.shift st (fileBody fs t i St.init) := by
  unfold fileBody
  cases t.Files[i]? with
  | none => simp [Step.shift, St.append_init]
  | some file =>
    cases t.FileStats[i]? with
    | none => simp [Step.shift, St.append_init]
    | some fileStats =>
      simp only []
      split
      · simp [Step.shift, St.append_init]
      · split
        · simp [Step.shift, St.append_init]
        · cases t.DownloadDir with
          | none => simp [Step.shift, St.append_init]
          | some dir =>
            simp only []
            cases fs (filepathJoin dir file.Name) with
            | error e => simp [Step.shift, St.append, St.init]
            | ok size =>
              simp only []
              split <;> simp [Step.shift, St.append, St.init]

theorem filesLoop_shift (fs : Fs) (t : Torrent) (k : Nat) :
    ∀ (i : Nat) (st : St),
      filesLoop fs t k i st = Step.shift st (filesLoop fs t k i St.init) := by
  induction k with
  | zero => intro i st; simp [filesLoop, Step.shift, St.append_init]
  | succ k ih =>
    intro i st
    simp only [filesLoop]
    rw [fileBody_shift fs t i st]
    cases fileBody fs t i St.init with
    | next d =>
      show filesLoop fs t k (i + 1) (st.append d) = Step.shift st (filesLoop fs t k (i + 1) d)
      rw [ih (i + 1) (st.append d), ih (i + 1) d, Step.shift_shift]
    | panic d => rfl

theorem torrentBody_shift (fs : Fs) (t : Torrent) (st : St) :
    torrentBody fs t st = Step.shift st (torrentBody fs t St.init) := by
  unfold torrentBody
  cases t.FileCount with
  | none => simp [Step.shift, St.append_init]
  | some n =>
    simp only []
    split
    · simp [Step.shift, St.append_init]
    · exact filesLoop_shift fs t n.toNat 0 st

theorem torrentsLoop_shift (fs : Fs) (ts : List Torrent) :
    ∀ st : St, torrentsLoop fs ts st = Step.shift st (torrentsLoop fs ts St.init) := by
  induction ts with
  | nil => intro st; simp [torrentsLoop, Step.shift, St.append_init]
  | cons t rest ih =>
    intro st
    simp only [torrentsLoop]
    rw [torrentBody_shift fs t st]
    cases torrentBody fs t St.init with
    | next d =>
      show torrentsLoop fs rest (st.append d) = Step.shift st (torrentsLoop fs rest d)
      rw [ih (st.append d), ih d, Step.shift_shift]
    | panic d => rfl

/-- The loop body reads the torrent only through the two entries at its index
and the download directory. -/
theorem fileBody_congr (fs : Fs) (t u : Torrent) (i j : Nat) (st : St)
    (hf : t.Files[i]? = u.Files[j]?) (hs : t.FileStats[i]? = u.FileStats[j]?)
    (hd : t.DownloadDir = u.DownloadDir) :
    fileBody fs t i st = fileBody fs u j st := by
  unfold fileBody
  rw [hf, hs, hd]

theorem filesLoop_congr (fs : Fs) (t u : Torrent) (k : Nat) :
    ∀ (i j : Nat) (st : St),
      (∀ m, m < k → ∀ s, fileBody fs t (i + m) s = fileBody fs u (j + m) s) →
      filesLoop fs t k i st = filesLoop fs u k j st := by
  induction k with
  | zero => intro i j st _; simp [filesLoop]
  | succ k ih =>
    intro i j st h
    simp only [filesLoop]
    have h0 := h 0 (Nat.succ_pos k) st
    simp only [Nat.add_zero] at h0
    rw [h0]
    cases fileBody fs u j st with
    | next d =>
      simp only []
      apply ih
      intro m hm s
      have := h (m + 1) (Nat.succ_lt_succ hm) s
      simpa [Nat.add_assoc, Nat.add_comm 1 m] using this
    | panic d => rfl

theorem filesLoop_add (fs : Fs) (t : Torrent) (a b : Nat) :
    ∀ (i : Nat) (st : St),
      filesLoop fs t (a + b) i st =
        (filesLoop fs t a i st).andThen (filesLoop fs t b (i + a)) := by
  induction a with
  | zero => intro i st; simp [filesLoop, Step.andThen]
  | succ a ih =>
    intro i st
    rw [Nat.succ_add]
    simp only [filesLoop]
    cases fileBody fs t i st with
    | next d =>
      simp only []
      rw [ih (i + 1) d]
      have hidx : i + 1 + a = i + (a + 1) := by omega
      rw [hidx]
    | panic d => simp [Step.andThen]

theorem torrentsLoop_append (fs : Fs) (a b : List Torrent) :
    ∀ st : St,
      torrentsLoop fs (a ++ b) st = (torrentsLoop fs a st).andThen (torrentsLoop fs b) := by
  induction a with
  | nil => intro st; simp [torrentsLoop, Step.andThen]
  | cons t rest ih =>
    intro st
    simp only [List.cons_append, torrentsLoop]
    cases torrentBody fs t st with
    | next d => simp only []; exact ih d
    | panic d => simp [Step.andThen]

/-! ### Records cut at an index -/

theorem torrentBody_takeFiles (fs : Fs) (t : Torrent) (k : Nat) (st : St) :
    torrentBody fs (t.takeFiles k) st = filesLoop fs t k 0 st := by
  have hneg : ¬ ((k : Int) < 0) := by omega
  simp only [torrentBody, Torrent.takeFiles, hneg, if_false, Int.toNat_ofNat]
  apply filesLoop_congr
  intro m hm s
  apply fileBody_congr
  · simp only [Nat.zero_add]; exact List.getElem?_take_of_lt hm
  · simp only [Nat.zero_add]; exact List.getElem?_take_of_lt hm
  · rfl

theorem torrentBody_dropFiles (fs : Fs) (t : Torrent) (n : Int) (k : Nat) (st : St)
    (hn : t.FileCount = some n) (hk : (k : Int) ≤ n) :
    torrentBody fs (t.dropFiles k) st = filesLoop fs t (n.toNat - k) k st := by
  have hneg : ¬ (n - (k : Int) < 0) := by omega
  have hnat : (n - (k : Int)).toNat = n.toNat - k := by omega
  simp only [torrentBody, Torrent.dropFiles, hn, Option.map_some', hneg, if_false, hnat]
  apply filesLoop_congr
  intro m _ s
  apply fileBody_congr
  · simp only [Nat.zero_add]; exact List.getElem?_drop _ _ _
  · simp only [Nat.zero_add]; exact List.getElem?_drop _ _ _
  · rfl

/-- The run of one torrent, cut at index `i`: the files before `i`, the file at
`i`, the files after `i`. -/
theorem torrentBody_split (fs : Fs) (t : Torrent) (n : Int) (i : Nat) (st : St)
    (hn : t.FileCount = some n) (hi : (i : Int) < n) :
    torrentBody fs t st =
      (torrentBody fs (t.takeFiles i) st).andThen (fun s1 =>
        (fileBody fs t i s1).andThen (torrentBody fs (t.dropFiles (i + 1)))) := by
  have hneg : ¬ (n < 0) := by omega
  have hsum : n.toNat = i + (1 + (n.toNat - (i + 1))) := by omega
  have hdrop : ∀ s, torrentBody fs (t.dropFiles (i + 1)) s
      = filesLoop fs t (n.toNat - (i + 1)) (i + 1) s := by
    intro s
    exact torrentBody_dropFiles fs t n (i + 1) s hn (by omega)
  rw [torrentBody_takeFiles]
  simp only [torrentBody, hn, hneg, if_false]
  rw [hsum, filesLoop_add, Nat.zero_add]
  congr 1
  funext s1
  rw [filesLoop_add]
  have hone : ∀ s, filesLoop fs t 1 i s = fileBody fs t i s := by
    intro s
    simp only [filesLoop]
    cases fileBody fs t i s <;> rfl
  rw [hone]
  congr 1
  funext s2
  rw [hdrop]

/-! ### The loop body, case by case -/

theorem fileBody_skip (fs : Fs) (t : Torrent) (i : Nat) (st : St)
    (file : TorrentFile) (fileStats : TorrentFileStat)
    (hf : t.Files[i]? = some file) (hs : t.FileStats[i]? = some fileStats)
    (h : file.BytesCompleted ≠ file.Length ∨ fileStats.BytesCompleted ≠ file.Length) :
    fileBody fs t i st = .next st := by
  unfold fileBody
  rw [hf, hs]
  simp only []
  by_cases hA : file.BytesCompleted = file.Length
  · have hB : fileStats.BytesCompleted ≠ file.Length := by
      cases h with
      | inl h => exact absurd hA h
      | inr h => exact h
    simp [hA, hB]
  · simp [hA]

theorem fileBody_statError (fs : Fs) (t : Torrent) (i : Nat) (st : St)
    (dir : String) (file : TorrentFile) (fileStats : TorrentFileStat) (e : Error)
    (hd : t.DownloadDir = some dir)
    (hf : t.Files[i]? = some file) (hs : t.FileStats[i]? = some fileStats)
    (hA : file.BytesCompleted = file.Length) (hB : fileStats.BytesCompleted = file.Length)
    (hstat : fs (filepathJoin dir file.Name) = .error e) :
    fileBody fs t i st =
      .next { st with logs := st.logs ++ [warnMissing file (filepathJoin dir file.Name)],
                      stats := st.stats ++ [filepathJoin dir file.Name] } := by
  unfold fileBody
  rw [hf, hs, hd]
  simp [hA, hB, hstat]

theorem fileBody_mismatch (fs : Fs) (t : Torrent) (i : Nat) (st : St)
    (dir : String) (file : TorrentFile) (fileStats : TorrentFileStat) (size : Int)
    (hd : t.DownloadDir = some dir)
    (hf : t.Files[i]? = some file) (hs : t.FileStats[i]? = some fileStats)
    (hA : file.BytesCompleted = file.Length) (hB : fileStats.BytesCompleted = file.Length)
    (hstat : fs (filepathJoin dir file.Name) = .ok size) (hsize : size ≠ file.Length) :
    fileBody fs t i st =
      .next { st with
        logs := st.logs ++ [warnMismatch file (filepathJoin dir file.Name) size],
        stats := st.stats ++ [filepathJoin dir file.Name] } := by
  unfold fileBody
  rw [hf, hs, hd]
  simp [hA, hB, hstat, hsize]

theorem fileBody_verified (fs : Fs) (t : Torrent) (i : Nat) (st : St)
    (dir : String) (file : TorrentFile) (fileStats : TorrentFileStat)
    (hd : t.DownloadDir = some dir)
    (hf : t.Files[i]? = some file) (hs : t.FileStats[i]? = some fileStats)
    (hA : file.BytesCompleted = file.Length) (hB : fileStats.BytesCompleted = file.Length)
    (hstat : fs (filepathJoin dir file.Name) = .ok file.Length) :
    fileBody fs t i st =
      .next { st with results := st.results ++ [filepathJoin dir file.Name],
                      stats := st.stats ++ [filepathJoin dir file.Name] } := by
  unfold fileBody
  rw [hf, hs, hd]
  simp [hA, hB, hstat]

/-- On an index that the record has, with a download directory, the body does
not panic, and it appends to `results` what the specification says. -/
theorem fileBody_results (fs : Fs) (t : Torrent) (i : Nat)
    (dir : String) (file : TorrentFile) (fileStats : TorrentFileStat)
    (hd : t.DownloadDir = some dir)
    (hf : t.Files[i]? = some file) (hs : t.FileStats[i]? = some fileStats) :
    ∃ d, fileBody fs t i St.init = .next d ∧ d.results = (verifiedAt fs t i).toList := by
  have hv : verifiedAt fs t i =
      if passesAllChecks fs dir file fileStats then some (filepathJoin dir file.Name)
      else none := by
    simp only [verifiedAt, hd, hf, hs]
  by_cases hA : file.BytesCompleted = file.Length
  · by_cases hB : fileStats.BytesCompleted = file.Length
    · cases hstat : fs (filepathJoin dir file.Name) with
      | error e =>
        refine ⟨_, fileBody_statError fs t i St.init dir file fileStats e hd hf hs hA hB hstat, ?_⟩
        simp [hv, passesAllChecks, hstat, St.init]
      | ok size =>
        by_cases hsize : size = file.Length
        · rw [hsize] at hstat
          refine ⟨_, fileBody_verified fs t i St.init dir file fileStats hd hf hs hA hB hstat, ?_⟩
          simp [hv, passesAllChecks, hstat, St.init, hA, hB]
        · refine ⟨_, fileBody_mismatch fs t i St.init dir file fileStats size hd hf hs hA hB
            hstat hsize, ?_⟩
          simp [hv, passesAllChecks, hstat, St.init, hsize]
    · refine ⟨_, fileBody_skip fs t i St.init file fileStats hf hs (Or.inr hB), ?_⟩
      simp [hv, passesAllChecks, St.init, hB]
  · refine ⟨_, fileBody_skip fs t i St.init file fileStats hf hs (Or.inl hA), ?_⟩
    simp [hv, passesAllChecks, St.init, hA]

/-! ### Records that satisfy the record invariant -/

theorem filesLoop_results (fs : Fs) (t : Torrent) (dir : String)
    (hd : t.DownloadDir = some dir) (k : Nat) :
    ∀ i : Nat, i + k ≤ t.Files.length → i + k ≤ t.FileStats.length →
      ∃ d, filesLoop fs t k i St.init = .next d ∧
        d.results = (List.range' i k).filterMap (verifiedAt fs t) := by
  induction k with
  | zero => intro i _ _; exact ⟨St.init, rfl, by simp [St.init]⟩
  | succ k ih =>
    intro i h1 h2
    have hi1 : i < t.Files.length := by omega
    have hi2 : i < t.FileStats.length := by omega
    obtain ⟨d0, hb, hr0⟩ := fileBody_results fs t i dir t.Files[i] t.FileStats[i] hd
      (List.getElem?_eq_getElem hi1) (List.getElem?_eq_getElem hi2)
    obtain ⟨d1, hl, hr1⟩ := ih (i + 1) (by omega) (by omega)
    refine ⟨d0.append d1, ?_, ?_⟩
    · simp only [filesLoop, hb]
      rw [filesLoop_shift, hl]
      rfl
    · rw [List.range'_succ, List.filterMap_cons]
      simp only [St.append, hr0, hr1]
      cases verifiedAt fs t i <;> simp

theorem torrentBody_results (fs : Fs) (t : Torrent) (h : t.WellFormed) :
    ∃ d, torrentBody fs t St.init = .next d ∧ d.results = verifiedOfTorrent fs t := by
  obtain ⟨hn, hlen, hdir⟩ := h
  obtain ⟨dir, hd⟩ := Option.isSome_iff_exists.mp hdir
  obtain ⟨d, hl, hr⟩ := filesLoop_results fs t dir hd t.Files.length 0 (by omega) (by omega)
  refine ⟨d, ?_, ?_⟩
  · have hneg : ¬ ((t.Files.length : Int) < 0) := by omega
    simp only [torrentBody, hn, hneg, if_false, Int.toNat_ofNat]
    exact hl
  · simp only [verifiedOfTorrent, hn, Option.getD_some, Int.toNat_ofNat, List.range_eq_range']
    exact hr

theorem torrentsLoop_results (fs : Fs) (snapshot : List Torrent)
    (h : ∀ t ∈ snapshot, t.WellFormed) :
    ∃ d, torrentsLoop fs snapshot St.init = .next d ∧
      d.results = verifiedInOrder fs snapshot := by
  induction snapshot with
  | nil => exact ⟨St.init, rfl, rfl⟩
  | cons t rest ih =>
    obtain ⟨d0, hb, hr0⟩ := torrentBody_results fs t (h t (List.mem_cons_self t rest))
    obtain ⟨d1, hl, hr1⟩ := ih (fun x hx => h x (List.mem_cons_of_mem t hx))
    refine ⟨d0.append d1, ?_, ?_⟩
    · simp only [torrentsLoop, hb]
      rw [torrentsLoop_shift, hl]
      rfl
    · simp only [St.append, hr0, hr1, verifiedInOrder]

/-- On a snapshot that satisfies the record invariant the call returns the
list of the specification and a nil error. -/
theorem completedFiles_results (fs : Fs) (snapshot : List Torrent)
    (h : ∀ t ∈ snapshot, t.WellFormed) :
    (CompletedFiles (.ok snapshot) fs).outcome
      = .returned (some (verifiedInOrder fs snapshot)) none := by
  obtain ⟨d, hl, hr⟩ := torrentsLoop_results fs snapshot h
  simp only [CompletedFiles, hl, hr]

/-! ### Cutting a run at one file -/

theorem fileBody_from (fs : Fs) (t : Torrent) (i : Nat) (d : St)
    (h : fileBody fs t i St.init = .next d) (st : St) :
    fileBody fs t i st = .next (st.append d) := by
  rw [fileBody_shift, h]; rfl

theorem torrentBody_from (fs : Fs) (t : Torrent) (d : St)
    (h : torrentBody fs t St.init = .next d) (st : St) :
    torrentBody fs t st = .next (st.append d) := by
  rw [torrentBody_shift, h]; rfl

theorem torrentsLoop_from (fs : Fs) (ts : List Torrent) (d : St)
    (h : torrentsLoop fs ts St.init = .next d) (st : St) :
    torrentsLoop fs ts st = .next (st.append d) := by
  rw [torrentsLoop_shift, h]; rfl

theorem wellFormed_takeFiles (t : Torrent) (i : Nat) (h : t.WellFormed)
    (hi : i ≤ t.Files.length) : (t.takeFiles i).WellFormed := by
  obtain ⟨_, hlen, hdir⟩ := h
  refine ⟨?_, ?_, hdir⟩
  · simp only [Torrent.takeFiles, List.length_take, Nat.min_eq_left hi]
  · simp only [Torrent.takeFiles, List.length_take, hlen]

theorem wellFormed_dropFiles (t : Torrent) (i : Nat) (h : t.WellFormed)
    (hi : i ≤ t.Files.length) : (t.dropFiles i).WellFormed := by
  obtain ⟨hn, hlen, hdir⟩ := h
  refine ⟨?_, ?_, hdir⟩
  · simp only [Torrent.dropFiles, hn, Option.map_some', List.length_drop, Option.some.injEq]
    omega
  · simp only [Torrent.dropFiles, List.length_drop, hlen]

/-- On a snapshot that satisfies the record invariant, the run is the run on
what comes before file `i` of torrent `t`, then the iteration of that file,
then the run on what comes after it. -/
theorem torrentsLoop_split (fs : Fs) (pre post : List Torrent) (t : Torrent) (i : Nat)
    (hwf : ∀ x ∈ pre ++ t :: post, x.WellFormed) (hi : i < t.Files.length) (e : St)
    (he : fileBody fs t i St.init = .next e) :
    ∃ d1 d2, torrentsLoop fs (pre ++ [t.takeFiles i]) St.init = .next d1 ∧
      torrentsLoop fs (t.dropFiles (i + 1) :: post) St.init = .next d2 ∧
      torrentsLoop fs (pre ++ t :: post) St.init = .next (d1.append (e.append d2)) := by
  have hpre : ∀ x ∈ pre, x.WellFormed := fun x hx =>
    hwf x (List.mem_append_left _ hx)
  have ht : t.WellFormed := hwf t (List.mem_append_right _ (List.mem_cons_self t post))
  have hpost : ∀ x ∈ post, x.WellFormed := fun x hx =>
    hwf x (List.mem_append_right _ (List.mem_cons_of_mem t hx))
  obtain ⟨dp, hdp, _⟩ := torrentsLoop_results fs pre hpre
  obtain ⟨dq, hdq, _⟩ := torrentsLoop_results fs post hpost
  obtain ⟨dt, hdt, _⟩ := torrentBody_results fs (t.takeFiles i)
    (wellFormed_takeFiles t i ht (by omega))
  obtain ⟨dd, hdd, _⟩ := torrentBody_results fs (t.dropFiles (i + 1))
    (wellFormed_dropFiles t (i + 1) ht (by omega))
  have hn : t.FileCount = some (t.Files.length : Int) := ht.1
  refine ⟨dp.append dt, dd.append dq, ?_, ?_, ?_⟩
  · rw [torrentsLoop_append, hdp]
    simp only [Step.andThen, torrentsLoop, torrentBody_from fs _ dt hdt]
  · simp only [torrentsLoop, hdd]
    exact torrentsLoop_from fs post dq hdq dd
  · rw [torrentsLoop_append, hdp]
    simp only [Step.andThen, torrentsLoop]
    rw [torrentBody_split fs t _ i dp hn (by omega), torrentBody_from fs _ dt hdt]
    simp only [Step.andThen, fileBody_from fs t i e he, torrentBody_from fs _ dd hdd,
      torrentsLoop_from fs post dq hdq, St.append_assoc]

/-- The same cut, read on the runs of `CompletedFiles`. -/
theorem completedFiles_split (fs : Fs) (pre post : List Torrent) (t : Torrent) (i : Nat)
    (hwf : ∀ x ∈ pre ++ t :: post, x.WellFormed) (hi : i < t.Files.length) (e : St)
    (he : fileBody fs t i St.init = .next e) :
    ∃ r1 l1 s1 r2 l2 s2,
      CompletedFiles (.ok (pre ++ [t.takeFiles i])) fs = ⟨.returned (some r1) none, l1, s1⟩ ∧
      CompletedFiles (.ok (t.dropFiles (i + 1) :: post)) fs
        = ⟨.returned (some r2) none, l2, s2⟩ ∧
      CompletedFiles (.ok (pre ++ t :: post)) fs
        = ⟨.returned (some (r1 ++ (e.results ++ r2))) none, l1 ++ (e.logs ++ l2),
            s1 ++ (e.stats ++ s2)⟩ := by
  obtain ⟨d1, d2, h1, h2, h3⟩ := torrentsLoop_split fs pre post t i hwf hi e he
  refine ⟨d1.results, d1.logs, d1.stats, d2.results, d2.logs, d2.stats, ?_, ?_, ?_⟩
  · simp only [CompletedFiles, h1]
  · simp only [CompletedFiles, h2]
  · simp only [CompletedFiles, h3, St.append]

/-! ### The error value of a failed `Stat` is not read -/

theorem fileBody_error_kind (fs fs2 : Fs) (t : Torrent) (i : Nat) (st : St)
    (hok : ∀ p size, fs p = .ok size ↔ fs2 p = .ok size) :
    fileBody fs t i st = fileBody fs2 t i st := by
  unfold fileBody
  cases t.Files[i]? with
  | none => rfl
  | some file =>
    cases t.FileStats[i]? with
    | none => rfl
    | some fileStats =>
      cases t.DownloadDir with
      | none => rfl
      | some dir =>
        simp only []
        cases h1 : fs (filepathJoin dir file.Name) with
        | ok size => rw [(hok _ size).mp h1]
        | error e1 =>
          cases h2 : fs2 (filepathJoin dir file.Name) with
          | ok size => rw [(hok _ size).mpr h2] at h1; exact absurd h1 (by simp)
          | error e2 => rfl

theorem filesLoop_error_kind (fs fs2 : Fs) (t : Torrent)
    (hok : ∀ p size, fs p = .ok size ↔ fs2 p = .ok size) (k : Nat) :
    ∀ (i : Nat) (st : St), filesLoop fs t k i st = filesLoop fs2 t k i st := by
  induction k with
  | zero => intro i st; rfl
  | succ k ih =>
    intro i st
    simp only [filesLoop, fileBody_error_kind fs fs2 t i st hok, ih]

theorem torrentsLoop_error_kind (fs fs2 : Fs)
    (hok : ∀ p size, fs p = .ok size ↔ fs2 p = .ok size) (ts : List Torrent) :
    ∀ st : St, torrentsLoop fs ts st = torrentsLoop fs2 ts st := by
  induction ts with
  | nil => intro st; rfl
  | cons t rest ih =>
    intro st
    simp only [torrentsLoop, torrentBody, filesLoop_error_kind fs fs2 t hok, ih]

theorem completedFiles_error_kind (fs fs2 : Fs)
    (hok : ∀ p size, fs p = .ok size ↔ fs2 p = .ok size)
    (fetch : Except Error (List Torrent)) :
    CompletedFiles fetch fs = CompletedFiles fetch fs2 := by
  cases fetch with
  | error e => rfl
  | ok ts => simp only [CompletedFiles, torrentsLoop_error_kind fs fs2 hok ts]

/-- A file that passes both counter checks and whose `Stat` fails, with
whatever error: one `source file missing` warning, nothing added to the
results, and the rest of the snapshot is processed. -/
theorem completedFiles_statError (fs : Fs) (pre post : List Torrent) (t : Torrent) (i : Nat)
    (dir : String) (file : TorrentFile) (fileStats : TorrentFileStat) (e : Error)
    (hwf : ∀ x ∈ pre ++ t :: post, x.WellFormed)
    (hd : t.DownloadDir = some dir)
    (hf : t.Files[i]? = some file) (hs : t.FileStats[i]? = some fileStats)
    (hA : file.BytesCompleted = file.Length) (hB : fileStats.BytesCompleted = file.Length)
    (hstat : fs (filepathJoin dir file.Name) = .error e) :
    ∃ r1 l1 s1 r2 l2 s2,
      CompletedFiles (.ok (pre ++ [t.takeFiles i])) fs = ⟨.returned (some r1) none, l1, s1⟩ ∧
      CompletedFiles (.ok (t.dropFiles (i + 1) :: post)) fs
        = ⟨.returned (some r2) none, l2, s2⟩ ∧
      CompletedFiles (.ok (pre ++ t :: post)) fs
        = ⟨.returned (some (r1 ++ r2)) none,
            l1 ++ warnMissing file (filepathJoin dir file.Name) :: l2,
            s1 ++ filepathJoin dir file.Name :: s2⟩ := by
  obtain ⟨hi, _⟩ := List.getElem?_eq_some.mp hf
  have he := fileBody_statError fs t i St.init dir file fileStats e hd hf hs hA hB hstat
  obtain ⟨r1, l1, s1, r2, l2, s2, h1, h2, h3⟩ :=
    completedFiles_split fs pre post t i hwf hi _ he
  refine ⟨r1, l1, s1, r2, l2, s2, h1, h2, ?_⟩
  rw [h3]
  simp [St.init]

/-! ### The `wanted` flag -/

theorem fileBody_clearWanted (fs : Fs) (t : Torrent) (i : Nat) (st : St) :
    fileBody fs t.clearWanted i st = fileBody fs t i st := by
  unfold fileBody
  simp only [Torrent.clearWanted, List.getElem?_map]
  cases t.Files[i]? with
  | none => rfl
  | some file =>
    cases t.FileStats[i]? with
    | none => rfl
    | some fileStats => rfl

theorem torrentBody_clearWanted (fs : Fs) (t : Torrent) (st : St) :
    torrentBody fs t.clearWanted st = torrentBody fs t st := by
  have hloop : ∀ k, filesLoop fs t.clearWanted k 0 st = filesLoop fs t k 0 st := by
    intro k
    apply filesLoop_congr
    intro m _ s
    exact fileBody_clearWanted fs t (0 + m) s
  unfold torrentBody
  have hc : t.clearWanted.FileCount = t.FileCount := rfl
  rw [hc]
  cases t.FileCount with
  | none => rfl
  | some n =>
    simp only []
    split
    · rfl
    · exact hloop n.toNat

theorem torrentsLoop_clearWanted (fs : Fs) (ts : List Torrent) :
    ∀ st : St, torrentsLoop fs (ts.map Torrent.clearWanted) st = torrentsLoop fs ts st := by
  induction ts with
  | nil => intro st; rfl
  | cons t rest ih =>
    intro st
    simp only [List.map_cons, torrentsLoop, torrentBody_clearWanted, ih]

theorem completedFiles_clearWanted (fs : Fs) (ts : List Torrent) :
    CompletedFiles (.ok (ts.map Torrent.clearWanted)) fs = CompletedFiles (.ok ts) fs := by
  simp only [CompletedFiles, torrentsLoop_clearWanted]

/-! ### Membership in the list of the specification -/

theorem verifiedAt_eq_some (fs : Fs) (t : Torrent) (i : Nat) (p : String) :
    verifiedAt fs t i = some p ↔
      ∃ dir file fileStats, t.DownloadDir = some dir ∧ t.Files[i]? = some file ∧
        t.FileStats[i]? = some fileStats ∧ p = filepathJoin dir file.Name ∧
        file.BytesCompleted = file.Length ∧ fileStats.BytesCompleted = file.Length ∧
        fs p = .ok file.Length := by
  unfold verifiedAt
  cases hd : t.DownloadDir with
  | none => simp
  | some dir =>
    cases hf : t.Files[i]? with
    | none => simp
    | some file =>
      cases hs : t.FileStats[i]? with
      | none => simp
      | some fileStats =>
        simp only [Option.some.injEq, exists_and_left, exists_eq_left', passesAllChecks]
        constructor
        · intro h
          split at h
          · rename_i hpass
            simp only [Option.some.injEq] at h
            subst h
            simp only [Bool.and_eq_true, beq_iff_eq] at hpass
            obtain ⟨⟨hA, hB⟩, hstat⟩ := hpass
            refine ⟨rfl, hA, hB, ?_⟩
            cases hfs : fs (filepathJoin dir file.Name) with
            | error e => simp [hfs] at hstat
            | ok size =>
              simp only [hfs, beq_iff_eq] at hstat
              rw [hstat]
          · exact absurd h (by simp)
        · rintro ⟨hp, hA, hB, hstat⟩
          subst hp
          simp [hA, hB, hstat]

theorem mem_verifiedInOrder (fs : Fs) (p : String) (snapshot : List Torrent) :
    p ∈ verifiedInOrder fs snapshot ↔ ∃ t ∈ snapshot, p ∈ verifiedOfTorrent fs t := by
  induction snapshot with
  | nil => simp [verifiedInOrder]
  | cons t rest ih => simp [verifiedInOrder, ih]

/-! ## The claims -/

/-- C1: on a snapshot that satisfies the record invariant, for every stat
oracle, the call returns a list (and a nil error) in which a path `p` occurs if
and only if some torrent `t` of the snapshot has an index `i < t.fileCount`
with `p = join(t.downloadDir, t.files[i].name)`, both completion counters
equal to the length, and `stat(p)` succeeding with that length as size.  In
particular the one-file scenario `/data`, `a.iso`, length 100, returns
`["/data/a.iso"]` with no diagnostic. -/
theorem completedFiles_mem_iff :
    (∀ (fs : Fs) (snapshot : List Torrent), (∀ t ∈ snapshot, t.WellFormed) →
      ∃ paths, (CompletedFiles (.ok snapshot) fs).outcome = .returned (some paths) none ∧
        ∀ p, p ∈ paths ↔
          ∃ t ∈ snapshot, ∃ (i : Nat) (n : Int) (dir : String) (file : TorrentFile)
              (fileStats : TorrentFileStat),
            t.FileCount = some n ∧ (i : Int) < n ∧ t.DownloadDir = some dir ∧
            t.Files[i]? = some file ∧ t.FileStats[i]? = some fileStats ∧
            p = filepathJoin dir file.Name ∧
            file.BytesCompleted = file.Length ∧ fileStats.BytesCompleted = file.Length ∧
            fs p = .ok file.Length) ∧
    CompletedFiles (.ok [scenarioTorrent 100]) (scenarioFs (.ok 100))
      = ⟨.returned (some ["/data/a.iso"]) none, [], ["/data/a.iso"]⟩ := by
  refine ⟨?_, by decide⟩
  intro fs snapshot hwf
  refine ⟨verifiedInOrder fs snapshot, completedFiles_results fs snapshot hwf, ?_⟩
  intro p
  rw [mem_verifiedInOrder]
  constructor
  · rintro ⟨t, ht, hp⟩
    simp only [verifiedOfTorrent, List.mem_filterMap, List.mem_range] at hp
    obtain ⟨i, hi, hv⟩ := hp
    obtain ⟨dir, file, fileStats, hd, hf, hs, hpe, hA, hB, hstat⟩ :=
      (verifiedAt_eq_some fs t i p).mp hv
    obtain ⟨hn, _, _⟩ := hwf t ht
    refine ⟨t, ht, i, (t.Files.length : Int), dir, file, fileStats, hn, ?_, hd, hf, hs, hpe,
      hA, hB, hstat⟩
    rw [hn] at hi
    simp only [Option.getD_some, Int.toNat_ofNat] at hi
    exact Int.ofNat_lt.mpr hi
  · rintro ⟨t, ht, i, n, dir, file, fileStats, hn, hi, hd, hf, hs, hpe, hA, hB, hstat⟩
    refine ⟨t, ht, ?_⟩
    simp only [verifiedOfTorrent, List.mem_filterMap, List.mem_range]
    refine ⟨i, ?_, (verifiedAt_eq_some fs t i p).mpr
      ⟨dir, file, fileStats, hd, hf, hs, hpe, hA, hB, hstat⟩⟩
    rw [hn]
    simp only [Option.getD_some]
    omega

/-- Witness of C1 on the ordering scenario. -/
theorem completedFiles_mem_iff_witness :
    (∀ t ∈ [orderT1, orderT2], t.WellFormed) ∧
    ∃ paths, (CompletedFiles (.ok [orderT1, orderT2]) orderFs).outcome
        = .returned (some paths) none ∧
      ∀ p, p ∈ paths ↔
        ∃ t ∈ [orderT1, orderT2], ∃ (i : Nat) (n : Int) (dir : String) (file : TorrentFile)
            (fileStats : TorrentFileStat),
          t.FileCount = some n ∧ (i : Int) < n ∧ t.DownloadDir = some dir ∧
          t.Files[i]? = some file ∧ t.FileStats[i]? = some fileStats ∧
          p = filepathJoin dir file.Name ∧
          file.BytesCompleted = file.Length ∧ fileStats.BytesCompleted = file.Length ∧
          orderFs p = .ok file.Length :=
  ⟨by decide, completedFiles_mem_iff.1 orderFs [orderT1, orderT2] (by decide)⟩

/-- C2: on a snapshot that satisfies the record invariant the returned list is
exactly the sequence of the specification: torrents in snapshot order, within a
torrent the indices in ascending order, one entry `join(downloadDir, name)` for
each file that passes all checks, nothing reordered and nothing removed.  For
two torrents of two files each that all pass, the list is
`[T1.file0, T1.file1, T2.file0, T2.file1]`. -/
theorem completedFiles_in_order :
    (∀ (fs : Fs) (snapshot : List Torrent), (∀ t ∈ snapshot, t.WellFormed) →
      (CompletedFiles (.ok snapshot) fs).outcome
        = .returned (some (verifiedInOrder fs snapshot)) none) ∧
    (∀ (fs : Fs) (dir1 dir2 : String) (a b c d : TorrentFile)
        (sa sb sc sd : TorrentFileStat),
      passesAllChecks fs dir1 a sa = true → passesAllChecks fs dir1 b sb = true →
      passesAllChecks fs dir2 c sc = true → passesAllChecks fs dir2 d sd = true →
      (CompletedFiles
          (.ok [⟨some dir1, [a, b], [sa, sb], some 2⟩, ⟨some dir2, [c, d], [sc, sd], some 2⟩])
          fs).outcome
        = .returned (some [filepathJoin dir1 a.Name, filepathJoin dir1 b.Name,
            filepathJoin dir2 c.Name, filepathJoin dir2 d.Name]) none) := by
  refine ⟨completedFiles_results, ?_⟩
  intro fs dir1 dir2 a b c d sa sb sc sd ha hb hc hd
  have hwf : ∀ t ∈ [(⟨some dir1, [a, b], [sa, sb], some 2⟩ : Torrent),
      ⟨some dir2, [c, d], [sc, sd], some 2⟩], t.WellFormed := by
    intro t ht
    simp only [List.mem_cons, List.mem_singleton, List.not_mem_nil, or_false] at ht
    rcases ht with rfl | rfl <;> simp [Torrent.WellFormed]
  rw [completedFiles_results fs _ hwf]
  simp [verifiedInOrder, verifiedOfTorrent, verifiedAt, List.range_succ, ha, hb, hc, hd]

/-- Witness of C2 on the ordering scenario: both torrents resolve their first
file to `/data/x`, and the path is kept twice. -/
theorem completedFiles_in_order_witness :
    (∀ t ∈ [orderT1, orderT2], t.WellFormed) ∧
    (CompletedFiles (.ok [orderT1, orderT2]) orderFs).outcome
      = .returned (some (verifiedInOrder orderFs [orderT1, orderT2])) none ∧
    verifiedInOrder orderFs [orderT1, orderT2] = ["/data/x", "/data/y", "/data/x", "/data/z"] :=
  ⟨by decide, completedFiles_in_order.1 orderFs [orderT1, orderT2] (by decide), by decide⟩

/-! ### Replacing one record of the snapshot -/

theorem torrentsLoop_replace (fs : Fs) (pre post : List Torrent) (t u : Torrent)
    (h : ∀ st, torrentBody fs t st = torrentBody fs u st) (st : St) :
    torrentsLoop fs (pre ++ t :: post) st = torrentsLoop fs (pre ++ u :: post) st := by
  rw [torrentsLoop_append, torrentsLoop_append]
  congr 1
  funext s1
  simp only [torrentsLoop, h]

theorem completedFiles_replace (fs : Fs) (pre post : List Torrent) (t u : Torrent)
    (h : ∀ st, torrentBody fs t st = torrentBody fs u st) :
    CompletedFiles (.ok (pre ++ t :: post)) fs = CompletedFiles (.ok (pre ++ u :: post)) fs := by
  simp only [CompletedFiles, torrentsLoop_replace fs pre post t u h]

theorem torrentBody_eraseFile (fs : Fs) (t : Torrent) (n : Int) (i : Nat)
    (file : TorrentFile) (fileStats : TorrentFileStat)
    (hn : t.FileCount = some n) (hi : (i : Int) < n)
    (hf : t.Files[i]? = some file) (hs : t.FileStats[i]? = some fileStats)
    (h : file.BytesCompleted ≠ file.Length ∨ fileStats.BytesCompleted ≠ file.Length)
    (st : St) :
    torrentBody fs t st = torrentBody fs (t.eraseFile i) st := by
  have hneg : ¬ (n < 0) := by omega
  have hneg1 : ¬ (n - 1 < 0) := by omega
  obtain ⟨m, hm⟩ : ∃ m, n.toNat = i + 1 + m := ⟨n.toNat - (i + 1), by omega⟩
  have hlen : n.toNat = i + (1 + m) := by omega
  have hlen1 : (n - 1).toNat = i + m := by omega
  have hcount : (t.eraseFile i).FileCount = some (n - 1) := by
    simp [Torrent.eraseFile, hn]
  have hbefore : ∀ s, filesLoop fs t i 0 s = filesLoop fs (t.eraseFile i) i 0 s := by
    intro s
    apply filesLoop_congr
    intro m hm s1
    apply fileBody_congr
    · simp only [Nat.zero_add]
      exact (List.getElem?_eraseIdx_of_lt t.Files i m hm).symm
    · simp only [Nat.zero_add]
      exact (List.getElem?_eraseIdx_of_lt t.FileStats i m hm).symm
    · rfl
  have hafter : ∀ k s, filesLoop fs t k (i + 1) s = filesLoop fs (t.eraseFile i) k i s := by
    intro k s
    apply filesLoop_congr
    intro m _ s1
    have hidx : i + 1 + m = i + m + 1 := by omega
    apply fileBody_congr
    · rw [hidx]
      exact (List.getElem?_eraseIdx_of_ge t.Files i (i + m) (by omega)).symm
    · rw [hidx]
      exact (List.getElem?_eraseIdx_of_ge t.FileStats i (i + m) (by omega)).symm
    · rfl
  have hone : ∀ s, filesLoop fs t 1 i s = .next s := by
    intro s
    simp only [filesLoop, fileBody_skip fs t i s file fileStats hf hs h]
  simp only [torrentBody, hn, hcount, hneg, hneg1, if_false]
  rw [hlen1, filesLoop_add, ← hbefore, Nat.zero_add]
  rw [hlen, filesLoop_add, Nat.zero_add]
  congr 1
  funext s1
  rw [filesLoop_add, hone]
  exact hafter _ s1

/-- C3: a file whose `bytesCompleted` differs from its `length`, or whose
`fileStats.bytesCompleted` differs from its `length`, leaves the run untouched:
its iteration changes neither the results, nor the diagnostics, nor the stat
queries, and the whole run is the run on the snapshot without that file. -/
theorem incomplete_file_ignored (fs : Fs) (pre post : List Torrent) (t : Torrent)
    (n : Int) (i : Nat) (file : TorrentFile) (fileStats : TorrentFileStat)
    (hn : t.FileCount = some n) (hi : (i : Int) < n)
    (hf : t.Files[i]? = some file) (hs : t.FileStats[i]? = some fileStats)
    (h : file.BytesCompleted ≠ file.Length ∨ fileStats.BytesCompleted ≠ file.Length) :
    (∀ st, fileBody fs t i st = .next st) ∧
    CompletedFiles (.ok (pre ++ t :: post)) fs
      = CompletedFiles (.ok (pre ++ t.eraseFile i :: post)) fs :=
  ⟨fun st => fileBody_skip fs t i st file fileStats hf hs h,
   completedFiles_replace fs pre post t (t.eraseFile i)
     (torrentBody_eraseFile fs t n i file fileStats hn hi hf hs h)⟩

/-- Witness of C3: the scenario file with `bytesCompleted = 50`, `length = 100`
is excluded, with no diagnostic and no stat query. -/
theorem incomplete_file_ignored_witness :
    ((∀ st, fileBody (scenarioFs (.ok 100)) (scenarioTorrent 50) 0 st = .next st) ∧
      CompletedFiles (.ok ([] ++ scenarioTorrent 50 :: [])) (scenarioFs (.ok 100))
        = CompletedFiles (.ok ([] ++ (scenarioTorrent 50).eraseFile 0 :: []))
            (scenarioFs (.ok 100))) ∧
    CompletedFiles (.ok [scenarioTorrent 50]) (scenarioFs (.ok 100))
      = ⟨.returned (some []) none, [], []⟩ :=
  ⟨incomplete_file_ignored (scenarioFs (.ok 100)) [] [] (scenarioTorrent 50) 1 0
      ⟨50, 100, "a.iso"⟩ ⟨100, true, 0⟩ rfl (by decide) rfl rfl (Or.inl (by decide)),
   by decide⟩

/-- C4: a file that passes both counter checks and whose resolved path is
absent (`Stat` fails with not-found) gets exactly one `source file missing`
diagnostic carrying its name, the resolved path and `bytesCompleted/length`;
nothing is added to the output for it; the files and torrents before and after
it are processed as usual. -/
theorem missing_source_diagnostic (fs : Fs) (pre post : List Torrent) (t : Torrent) (i : Nat)
    (dir : String) (file : TorrentFile) (fileStats : TorrentFileStat)
    (hwf : ∀ x ∈ pre ++ t :: post, x.WellFormed)
    (hd : t.DownloadDir = some dir)
    (hf : t.Files[i]? = some file) (hs : t.FileStats[i]? = some fileStats)
    (hA : file.BytesCompleted = file.Length) (hB : fileStats.BytesCompleted = file.Length)
    (hstat : fs (filepathJoin dir file.Name) = .error Error.ErrNotExist) :
    ∃ r1 l1 s1 r2 l2 s2,
      CompletedFiles (.ok (pre ++ [t.takeFiles i])) fs = ⟨.returned (some r1) none, l1, s1⟩ ∧
      CompletedFiles (.ok (t.dropFiles (i + 1) :: post)) fs
        = ⟨.returned (some r2) none, l2, s2⟩ ∧
      CompletedFiles (.ok (pre ++ t :: post)) fs
        = ⟨.returned (some (r1 ++ r2)) none,
            l1 ++ (⟨"source file missing",
              [Field.String "name" file.Name,
               Field.String "source" (filepathJoin dir file.Name),
               Field.String "size"
                 (toString file.BytesCompleted ++ "/" ++ toString file.Length)]⟩ : Warn) :: l2,
            s1 ++ filepathJoin dir file.Name :: s2⟩ :=
  completedFiles_statError fs pre post t i dir file fileStats Error.ErrNotExist hwf hd hf hs
    hA hB hstat

/-- Witness of C4: the scenario with a not-found answer gives an empty output
and one `source file missing` diagnostic for `/data/a.iso`. -/
theorem missing_source_diagnostic_witness :
    (∃ r1 l1 s1 r2 l2 s2,
      CompletedFiles (.ok ([] ++ [(scenarioTorrent 100).takeFiles 0]))
          (scenarioFs (.error Error.ErrNotExist)) = ⟨.returned (some r1) none, l1, s1⟩ ∧
      CompletedFiles (.ok ((scenarioTorrent 100).dropFiles (0 + 1) :: []))
          (scenarioFs (.error Error.ErrNotExist)) = ⟨.returned (some r2) none, l2, s2⟩ ∧
      CompletedFiles (.ok ([] ++ scenarioTorrent 100 :: []))
          (scenarioFs (.error Error.ErrNotExist))
        = ⟨.returned (some (r1 ++ r2)) none,
            l1 ++ (⟨"source file missing",
              [Field.String "name" "a.iso",
               Field.String "source" (filepathJoin "/data" "a.iso"),
               Field.String "size" (toString (100 : Int) ++ "/" ++ toString (100 : Int))]⟩
                : Warn) :: l2,
            s1 ++ filepathJoin "/data" "a.iso" :: s2⟩) ∧
    CompletedFiles (.ok [scenarioTorrent 100]) (scenarioFs (.error Error.ErrNotExist))
      = ⟨.returned (some []) none,
          [⟨"source file missing",
            [Field.String "name" "a.iso", Field.String "source" "/data/a.iso",
             Field.String "size" "100/100"]⟩],
          ["/data/a.iso"]⟩ :=
  ⟨missing_source_diagnostic (scenarioFs (.error Error.ErrNotExist)) [] [] (scenarioTorrent 100)
      0 "/data" ⟨100, 100, "a.iso"⟩ ⟨100, true, 0⟩ (by decide) rfl rfl rfl rfl rfl
      (by
        simp [scenarioFs, show filepathJoin "/data" "a.iso" = "/data/a.iso" by decide]),
   by decide⟩

/-- C5: a file that passes both counter checks and whose resolved path exists
with a size different from its length gets exactly one `filesize mismatch`
diagnostic carrying the path, the expected size `file.length` and the actual
remote size; nothing is added to the output for it; the files and torrents
before and after it are processed as usual. -/
theorem size_mismatch_diagnostic (fs : Fs) (pre post : List Torrent) (t : Torrent) (i : Nat)
    (dir : String) (file : TorrentFile) (fileStats : TorrentFileStat) (size : Int)
    (hwf : ∀ x ∈ pre ++ t :: post, x.WellFormed)
    (hd : t.DownloadDir = some dir)
    (hf : t.Files[i]? = some file) (hs : t.FileStats[i]? = some fileStats)
    (hA : file.BytesCompleted = file.Length) (hB : fileStats.BytesCompleted = file.Length)
    (hstat : fs (filepathJoin dir file.Name) = .ok size) (hsize : size ≠ file.Length) :
    ∃ r1 l1 s1 r2 l2 s2,
      CompletedFiles (.ok (pre ++ [t.takeFiles i])) fs = ⟨.returned (some r1) none, l1, s1⟩ ∧
      CompletedFiles (.ok (t.dropFiles (i + 1) :: post)) fs
        = ⟨.returned (some r2) none, l2, s2⟩ ∧
      CompletedFiles (.ok (pre ++ t :: post)) fs
        = ⟨.returned (some (r1 ++ r2)) none,
            l1 ++ (⟨"filesize mismatch",
              [Field.String "filename" (filepathJoin dir file.Name),
               Field.Int64 "torrent_file_size" file.Length,
               Field.Int64 "fs_file_size" size]⟩ : Warn) :: l2,
            s1 ++ filepathJoin dir file.Name :: s2⟩ := by
  obtain ⟨hi, _⟩ := List.getElem?_eq_some.mp hf
  have he := fileBody_mismatch fs t i St.init dir file fileStats size hd hf hs hA hB hstat hsize
  obtain ⟨r1, l1, s1, r2, l2, s2, h1, h2, h3⟩ :=
    completedFiles_split fs pre post t i hwf hi _ he
  refine ⟨r1, l1, s1, r2, l2, s2, h1, h2, ?_⟩
  rw [h3]
  simp [St.init, warnMismatch]

/-- Witness of C5: the scenario with a remote size of 50 gives an empty output
and one `filesize mismatch` diagnostic with expected 100 and actual 50. -/
theorem size_mismatch_diagnostic_witness :
    (∃ r1 l1 s1 r2 l2 s2,
      CompletedFiles (.ok ([] ++ [(scenarioTorrent 100).takeFiles 0]))
          (scenarioFs (.ok 50)) = ⟨.returned (some r1) none, l1, s1⟩ ∧
      CompletedFiles (.ok ((scenarioTorrent 100).dropFiles (0 + 1) :: []))
          (scenarioFs (.ok 50)) = ⟨.returned (some r2) none, l2, s2⟩ ∧
      CompletedFiles (.ok ([] ++ scenarioTorrent 100 :: [])) (scenarioFs (.ok 50))
        = ⟨.returned (some (r1 ++ r2)) none,
            l1 ++ (⟨"filesize mismatch",
              [Field.String "filename" (filepathJoin "/data" "a.iso"),
               Field.Int64 "torrent_file_size" 100,
               Field.Int64 "fs_file_size" 50]⟩ : Warn) :: l2,
            s1 ++ filepathJoin "/data" "a.iso" :: s2⟩) ∧
    CompletedFiles (.ok [scenarioTorrent 100]) (scenarioFs (.ok 50))
      = ⟨.returned (some []) none,
          [⟨"filesize mismatch",
            [Field.String "filename" "/data/a.iso", Field.Int64 "torrent_file_size" 100,
             Field.Int64 "fs_file_size" 50]⟩],
          ["/data/a.iso"]⟩ :=
  ⟨size_mismatch_diagnostic (scenarioFs (.ok 50)) [] [] (scenarioTorrent 100)
      0 "/data" ⟨100, 100, "a.iso"⟩ ⟨100, true, 0⟩ 50 (by decide) rfl rfl rfl rfl rfl
      (by
        simp [scenarioFs, show filepathJoin "/data" "a.iso" = "/data/a.iso" by decide]) (by decide),
   by decide⟩

/-- C6, as the specification states it, fails: a `Stat` that fails with a
permission error or with a transport error produces the very run, and the very
`source file missing` diagnostic, that a not-found answer produces. -/
theorem transport_error_reported_as_missing :
    CompletedFiles (.ok [scenarioTorrent 100]) (scenarioFs (.error Error.ErrPermission))
      = CompletedFiles (.ok [scenarioTorrent 100]) (scenarioFs (.error Error.ErrNotExist)) ∧
    CompletedFiles (.ok [scenarioTorrent 100])
        (scenarioFs (.error (Error.other "connection lost")))
      = CompletedFiles (.ok [scenarioTorrent 100]) (scenarioFs (.error Error.ErrNotExist)) ∧
    (CompletedFiles (.ok [scenarioTorrent 100])
        (scenarioFs (.error (Error.other "connection lost")))).logs
      = [⟨"source file missing",
          [Field.String "name" "a.iso", Field.String "source" "/data/a.iso",
           Field.String "size" "100/100"]⟩] := by
  decide

/-- C6, amended: a file that passes both counter checks and whose `Stat` fails
with an error other than not-found gets one diagnostic, the same `source file
missing` diagnostic as an absent file (the run is the one obtained when the
oracle answers not-found for that path); nothing is added to the output for it
and the files and torrents before and after it are processed as usual. -/
theorem stat_error_diagnostic (fs : Fs) (pre post : List Torrent) (t : Torrent) (i : Nat)
    (dir : String) (file : TorrentFile) (fileStats : TorrentFileStat) (e : Error)
    (hwf : ∀ x ∈ pre ++ t :: post, x.WellFormed)
    (hd : t.DownloadDir = some dir)
    (hf : t.Files[i]? = some file) (hs : t.FileStats[i]? = some fileStats)
    (hA : file.BytesCompleted = file.Length) (hB : fileStats.BytesCompleted = file.Length)
    (hstat : fs (filepathJoin dir file.Name) = .error e) (_hne : e ≠ Error.ErrNotExist) :
    CompletedFiles (.ok (pre ++ t :: post)) fs
      = CompletedFiles (.ok (pre ++ t :: post))
          (fun p => if p = filepathJoin dir file.Name then .error Error.ErrNotExist else fs p) ∧
    ∃ r1 l1 s1 r2 l2 s2,
      CompletedFiles (.ok (pre ++ [t.takeFiles i])) fs = ⟨.returned (some r1) none, l1, s1⟩ ∧
      CompletedFiles (.ok (t.dropFiles (i + 1) :: post)) fs
        = ⟨.returned (some r2) none, l2, s2⟩ ∧
      CompletedFiles (.ok (pre ++ t :: post)) fs
        = ⟨.returned (some (r1 ++ r2)) none,
            l1 ++ (⟨"source file missing",
              [Field.String "name" file.Name,
               Field.String "source" (filepathJoin dir file.Name),
               Field.String "size"
                 (toString file.BytesCompleted ++ "/" ++ toString file.Length)]⟩ : Warn) :: l2,
            s1 ++ filepathJoin dir file.Name :: s2⟩ := by
  refine ⟨?_, completedFiles_statError fs pre post t i dir file fileStats e hwf hd hf hs
    hA hB hstat⟩
  apply completedFiles_error_kind
  intro p size
  by_cases hp : p = filepathJoin dir file.Name
  · subst hp
    simp [hstat]
  · simp [hp]

/-- Witness of C6 (amended): the scenario with a permission error. -/
theorem stat_error_diagnostic_witness :
    CompletedFiles (.ok ([] ++ scenarioTorrent 100 :: []))
        (scenarioFs (.error Error.ErrPermission))
      = CompletedFiles (.ok ([] ++ scenarioTorrent 100 :: []))
          (fun p => if p = filepathJoin "/data" "a.iso" then .error Error.ErrNotExist
            else scenarioFs (.error Error.ErrPermission) p) ∧
    ∃ r1 l1 s1 r2 l2 s2,
      CompletedFiles (.ok ([] ++ [(scenarioTorrent 100).takeFiles 0]))
          (scenarioFs (.error Error.ErrPermission)) = ⟨.returned (some r1) none, l1, s1⟩ ∧
      CompletedFiles (.ok ((scenarioTorrent 100).dropFiles (0 + 1) :: []))
          (scenarioFs (.error Error.ErrPermission)) = ⟨.returned (some r2) none, l2, s2⟩ ∧
      CompletedFiles (.ok ([] ++ scenarioTorrent 100 :: []))
          (scenarioFs (.error Error.ErrPermission))
        = ⟨.returned (some (r1 ++ r2)) none,
            l1 ++ (⟨"source file missing",
              [Field.String "name" "a.iso",
               Field.String "source" (filepathJoin "/data" "a.iso"),
               Field.String "size" (toString (100 : Int) ++ "/" ++ toString (100 : Int))]⟩
                : Warn) :: l2,
            s1 ++ filepathJoin "/data" "a.iso" :: s2⟩ :=
  stat_error_diagnostic (scenarioFs (.error Error.ErrPermission)) [] [] (scenarioTorrent 100)
    0 "/data" ⟨100, 100, "a.iso"⟩ ⟨100, true, 0⟩ Error.ErrPermission (by decide) rfl rfl rfl
    rfl rfl (by
        simp [scenarioFs, show filepathJoin "/data" "a.iso" = "/data/a.iso" by decide]) (by decide)

/-- C7: the call returns a non-nil error if and only if the snapshot fetch
fails; it then returns that very error and a nil list, having done nothing
else; and on every fetched snapshot that satisfies the record invariant it
returns a list and a nil error, whatever the stat oracle answers. -/
theorem error_iff_fetch_fails (fetch : Except Error (List Torrent)) (fs : Fs) :
    ((∃ files e, (CompletedFiles fetch fs).outcome = .returned files (some e)) ↔
      ∃ e, fetch = .error e) ∧
    (∀ e, fetch = .error e → CompletedFiles fetch fs = ⟨.returned none (some e), [], []⟩) ∧
    (∀ snapshot, fetch = .ok snapshot → (∀ t ∈ snapshot, t.WellFormed) →
      ∃ paths, (CompletedFiles fetch fs).outcome = .returned (some paths) none) := by
  refine ⟨?_, ?_, ?_⟩
  · constructor
    · rintro ⟨files, e, h⟩
      cases fetch with
      | error e1 => exact ⟨e1, rfl⟩
      | ok ts =>
        simp only [CompletedFiles] at h
        cases hl : torrentsLoop fs ts St.init with
        | next st => rw [hl] at h; simp at h
        | panic st => rw [hl] at h; simp at h
    · rintro ⟨e, rfl⟩
      exact ⟨none, e, rfl⟩
  · rintro e rfl
    rfl
  · rintro snapshot rfl hwf
    exact ⟨_, completedFiles_results fs snapshot hwf⟩

/-- Witness of C7: a failed fetch, and a fetched snapshot whose only file is
missing on the filesystem. -/
theorem error_iff_fetch_fails_witness :
    CompletedFiles (.error (Error.other "rpc unreachable")) testFs
      = ⟨.returned none (some (Error.other "rpc unreachable")), [], []⟩ ∧
    (∀ t ∈ [scenarioTorrent 100], t.WellFormed) ∧
    ∃ paths, (CompletedFiles (.ok [scenarioTorrent 100])
        (scenarioFs (.error Error.ErrNotExist))).outcome = .returned (some paths) none :=
  ⟨(error_iff_fetch_fails (.error (Error.other "rpc unreachable")) testFs).2.1 _ rfl,
   by decide,
   (error_iff_fetch_fails (.ok [scenarioTorrent 100])
      (scenarioFs (.error Error.ErrNotExist))).2.2 _ rfl (by decide)⟩

/-- C8, as the specification states it, fails: a record whose `fileCount` (1)
is smaller than `len(files)` (2) neither fails the run nor is skipped with a
diagnostic; its first file is returned as verified and nothing is logged. -/
theorem malformed_record_accepted :
    malformedTorrent.FileCount = some 1 ∧ malformedTorrent.Files.length = 2 ∧
    ¬ malformedTorrent.WellFormed ∧
    CompletedFiles (.ok [malformedTorrent]) testFs
      = ⟨.returned (some ["/data/a.iso"]) none, [], ["/data/a.iso"]⟩ := by
  decide

/-- C8, amended: a record whose `fileCount` is present, not negative and at
most `len(files)` and `len(fileStats)` is processed as the record made of its
first `fileCount` files, which satisfies the record invariant: the entries from
index `fileCount` on are never read, and the malformation is not reported. -/
theorem malformed_record_truncated (fs : Fs) (pre post : List Torrent) (t : Torrent) (n : Int)
    (hn : t.FileCount = some n) (h0 : 0 ≤ n)
    (hf : n ≤ (t.Files.length : Int)) (hs : n ≤ (t.FileStats.length : Int)) :
    CompletedFiles (.ok (pre ++ t :: post)) fs
      = CompletedFiles (.ok (pre ++ t.takeFiles n.toNat :: post)) fs ∧
    (t.takeFiles n.toNat).FileCount = some ((t.takeFiles n.toNat).Files.length : Int) ∧
    (t.takeFiles n.toNat).FileStats.length = (t.takeFiles n.toNat).Files.length := by
  refine ⟨?_, ?_, ?_⟩
  · apply completedFiles_replace
    intro st
    rw [torrentBody_takeFiles]
    have hneg : ¬ (n < 0) := by omega
    simp only [torrentBody, hn, hneg, if_false]
  · simp only [Torrent.takeFiles, List.length_take, Option.some.injEq]
    omega
  · simp only [Torrent.takeFiles, List.length_take]
    omega

/-- Witness of C8 (amended) on the malformed record. -/
theorem malformed_record_truncated_witness :
    CompletedFiles (.ok ([] ++ malformedTorrent :: [])) testFs
      = CompletedFiles (.ok ([] ++ malformedTorrent.takeFiles (1 : Int).toNat :: [])) testFs ∧
    (malformedTorrent.takeFiles (1 : Int).toNat).FileCount
      = some ((malformedTorrent.takeFiles (1 : Int).toNat).Files.length : Int) ∧
    (malformedTorrent.takeFiles (1 : Int).toNat).FileStats.length
      = (malformedTorrent.takeFiles (1 : Int).toNat).Files.length :=
  malformed_record_truncated testFs [] [] malformedTorrent 1 rfl (by decide) (by decide)
    (by decide)

/-- A record whose `fileCount` exceeds `len(files)`, is negative, or is absent
makes the run panic: no list and no error are returned. -/
theorem malformed_record_panics :
    (CompletedFiles (.ok [⟨some "/data", [⟨100, 100, "a.iso"⟩], [⟨100, true, 0⟩], some 2⟩])
        testFs).outcome = .panicked ∧
    (CompletedFiles (.ok [⟨some "/data", [⟨100, 100, "a.iso"⟩], [⟨100, true, 0⟩], some (-1)⟩])
        testFs).outcome = .panicked ∧
    (CompletedFiles (.ok [⟨some "/data", [⟨100, 100, "a.iso"⟩], [⟨100, true, 0⟩], none⟩])
        testFs).outcome = .panicked := by
  decide

/-- C9: the `wanted` flag does not gate verification: two snapshots that differ
only in the values of `fileStats[i].wanted` give the same run (same list, same
diagnostics, same stat queries), for every stat oracle. -/
theorem wanted_flag_ignored (fs : Fs) (snapshot snapshot2 : List Torrent)
    (h : snapshot.map Torrent.clearWanted = snapshot2.map Torrent.clearWanted) :
    CompletedFiles (.ok snapshot) fs = CompletedFiles (.ok snapshot2) fs := by
  rw [← completedFiles_clearWanted fs snapshot, ← completedFiles_clearWanted fs snapshot2, h]

/-- Witness of C9: the ordering scenario with every `wanted` flag inverted. -/
theorem wanted_flag_ignored_witness :
    [orderT1, orderT2].map Torrent.clearWanted
      = [(⟨some "/data", [⟨10, 10, "x"⟩, ⟨20, 20, "y"⟩],
            [⟨10, false, 0⟩, ⟨20, false, 0⟩], some 2⟩ : Torrent),
         ⟨some "/data/", [⟨10, 10, "x"⟩, ⟨30, 30, "z"⟩],
            [⟨10, true, 0⟩, ⟨30, false, 0⟩], some 2⟩].map Torrent.clearWanted ∧
    CompletedFiles (.ok [orderT1, orderT2]) orderFs
      = CompletedFiles
          (.ok [⟨some "/data", [⟨10, 10, "x"⟩, ⟨20, 20, "y"⟩],
                  [⟨10, false, 0⟩, ⟨20, false, 0⟩], some 2⟩,
                ⟨some "/data/", [⟨10, 10, "x"⟩, ⟨30, 30, "z"⟩],
                  [⟨10, true, 0⟩, ⟨30, false, 0⟩], some 2⟩]) orderFs :=
  ⟨by decide, wanted_flag_ignored orderFs _ _ (by decide)⟩

/-- On the input of `TestCompletedFiles` the call does not return a list of 10
paths, the length that the assertion of the test asks for. -/
theorem test_input_not_ten_paths :
    ¬ ∃ files, (CompletedFiles (.ok [testTorrent]) testFs).outcome
        = .returned (some files) none ∧ files.length = 10 := by
  have h : (CompletedFiles (.ok [testTorrent]) testFs).outcome
      = .returned (some ["temp/a"]) none := by decide
  rintro ⟨files, hfiles, hlen⟩
  rw [h] at hfiles
  simp only [Outcome.returned.injEq, Option.some.injEq, and_true] at hfiles
  rw [← hfiles] at hlen
  simp at hlen

/-- C10: on the input of `TestCompletedFiles`, where the test asserts a list of
10 paths, the code returns a nil error and the list of exactly one path,
`temp/a`, after one stat query and no diagnostic. -/
theorem test_input_one_path :
    CompletedFiles (.ok [testTorrent]) testFs
      = ⟨.returned (some ["temp/a"]) none, [], ["temp/a"]⟩ ∧
    (["temp/a"] : List String).length = 1 := by
  decide

/-! ## `filepath.Join` on sample paths -/

/-- The model of `filepath.Join` on a few paths: joining, dropping empty
elements, and cleaning `.`, `..` and repeated separators. -/
theorem filepathJoin_samples :
    filepathJoin "/data" "a.iso" = "/data/a.iso" ∧
    filepathJoin "temp" "a" = "temp/a" ∧
    filepathJoin "/a/b/" "../c/./d//e" = "/a/c/d/e" ∧
    filepathJoin "" "" = "" ∧
    filepathJoin "" "a" = "a" ∧
    filepathJoin "a" "" = "a" ∧
    filepathJoin "a" "../.." = ".." ∧
    filepathJoin "/" "../.." = "/" ∧
    filepathJoin "a/b" "../../../x" = "../x" := by
  decide

end Homelab
